import Mathlib

/-!
Verification of the 7×7 facet-grid allocator (`create_facet_grid_pattern` in
`color_grid.py`).  The allocator is embedded shallowly: the grid is a function
from coordinates to labels (0 = empty, 1 = green / non-hydrophobic,
2 = blue / hydrophobic), Python integers are `ℤ`, the four float parameters
are `ℚ`, and `int(...)` truncation toward zero is `pyInt`.  Each Python loop
becomes a structurally recursive function over the concrete group lists, with
`break` modelled by returning the current state.
-/

namespace ColorGrid

abbrev Cell := Nat × Nat

/-- A grid maps a cell to its label; every cell starts at 0 (empty). -/
abbrev Grid := Cell → Nat

/-- Mirror of the Python assignment `grid[pos] = v`. -/
def setCell (g : Grid) (p : Cell) (v : Nat) : Grid :=
  fun q => if q = p then v else g q

def emptyGrid : Grid := fun _ => 0

/-- The 49 cells of the 7×7 grid, row by row (`for i in range(7) for j in range(7)`). -/
def allCells : List Cell :=
  (List.range 7).flatMap (fun i => (List.range 7).map (fun j => (i, j)))

/-- Line 28: the 12 hand-listed corner cells. -/
def corners : List Cell :=
  [(0,0), (0,1), (1,0), (0,6), (0,5), (1,6), (6,0), (5,0), (6,1), (6,6), (6,5), (5,6)]

/-- Lines 30-36: the outer perimeter, excluding corner cells. -/
def outerEdges : List Cell :=
  (List.range 7).flatMap (fun i =>
    (List.range 7).filterMap (fun j =>
      if (i = 0 ∨ i = 6 ∨ j = 0 ∨ j = 6) ∧ (i, j) ∉ corners then some (i, j) else none))

/-- Lines 38-43: the inner perimeter (rows/cols 1..5), excluding corner cells. -/
def innerEdges : List Cell :=
  (List.range' 1 5).flatMap (fun i =>
    (List.range' 1 5).filterMap (fun j =>
      if (i = 1 ∨ i = 5 ∨ j = 1 ∨ j = 5) ∧ (i, j) ∉ corners then some (i, j) else none))

/-- The edge role: outer perimeter cells followed by inner perimeter cells. -/
def edges : List Cell := outerEdges ++ innerEdges

/-- Line 46: the face role, `[(i,j) for i in range(2,5) for j in range(2,5)]`. -/
def faces : List Cell :=
  (List.range' 2 3).flatMap (fun i => (List.range' 2 3).map (fun j => (i, j)))

/-- Python `int(q)`: truncation of a rational toward zero. -/
def pyInt (q : ℚ) : ℤ := if q < 0 then ⌈q⌉ else ⌊q⌋

/-- Line 49: `vertex_chains = int(vertex_gd * len(corners))`. -/
def vertex_chains (vertex_gd : ℚ) : ℤ := pyInt (vertex_gd * (corners.length : ℚ))

/-- Line 50: `edge_chains = int(edge_gd * len(edges))`. -/
def edge_chains (edge_gd : ℚ) : ℤ := pyInt (edge_gd * (edges.length : ℚ))

/-- Line 51: `face_chains = int(face_gd * len(faces))`. -/
def face_chains (face_gd : ℚ) : ℤ := pyInt (face_gd * (faces.length : ℚ))

/-- Line 54: `total_chains = vertex_chains + edge_chains + face_chains`. -/
def total_chains (v e f : ℚ) : ℤ := vertex_chains v + edge_chains e + face_chains f

/-- Line 57: `hydrophobic_count = int(total_chains * blue_ratio)`. -/
def hydrophobic_count (v e f b : ℚ) : ℤ := pyInt ((total_chains v e f : ℚ) * b)

/-- Line 60: `non_hydrophobic_count = total_chains - hydrophobic_count`. -/
def non_hydrophobic_count (v e f b : ℚ) : ℤ :=
  total_chains v e f - hydrophobic_count v e f b

/-- Lines 71-78: the six corner symmetry groups. -/
def corner_groups : List (List Cell) :=
  [ [(0,0), (6,6)],
    [(0,6), (6,0)],
    [(0,1), (6,5)],
    [(1,0), (5,6)],
    [(0,5), (6,1)],
    [(1,6), (5,0)] ]

/-- Lines 98-105: the eight edge symmetry groups. -/
def edge_groups : List (List Cell) :=
  [ [(6,3), (3,6), (0,3), (3,0)],
    [(1,1), (5,5), (1,5), (5,1)],
    [(5,2), (1,4)],
    [(0,2), (0,4), (2,0), (4,0)],
    [(6,2), (6,4), (2,6), (4,6)],
    [(1,2), (5,4), (1,3), (5,3)],
    [(2,1), (4,5), (4,1)],
    [(2,5), (3,1), (3,5)] ]

/-- Lines 138-142: the three face symmetry groups. -/
def face_groups : List (List Cell) :=
  [ [(3,3)],
    [(2,2), (4,4), (4,2), (2,4)],
    [(2,3), (4,3), (3,2), (3,4)] ]

/-- Index list of Python `range(0, n, 2)`. -/
def pairIndices (n : Nat) : List Nat := (List.range ((n + 1) / 2)).map (fun k => 2 * k)

/-- Loop `for i in idxs: if i+1 < len(avail): write avail[i], avail[i+1]`, writing
value `v` and returning the new grid and the number of cells written. -/
def fillPairG (avail : List Cell) (v : Nat) (g : Grid) : List Nat → Grid × Nat
  | [] => (g, 0)
  | i :: idxs =>
    if i + 1 < avail.length then
      let s := fillPairG avail v
        (setCell (setCell g (avail.getD i (0,0)) v) (avail.getD (i+1) (0,0)) v) idxs
      (s.1, s.2 + 2)
    else fillPairG avail v g idxs

/-- Loop `for i in idxs: if i < len(avail): write avail[i]` (guarded, as in the
blue edge phase), returning the new grid and the number of cells written. -/
def fillSeqG (avail : List Cell) (v : Nat) (g : Grid) : List Nat → Grid × Nat
  | [] => (g, 0)
  | i :: idxs =>
    if i < avail.length then
      let s := fillSeqG avail v (setCell g (avail.getD i (0,0)) v) idxs
      (s.1, s.2 + 1)
    else fillSeqG avail v g idxs

/-- Loop `for i in idxs: write avail[i]` (unguarded, as in the green phases),
returning the new grid and the number of cells written. -/
def fillSeqU (avail : List Cell) (v : Nat) (g : Grid) : List Nat → Grid × Nat
  | [] => (g, 0)
  | i :: idxs =>
    let s := fillSeqU avail v (setCell g (avail.getD i (0,0)) v) idxs
    (s.1, s.2 + 1)

/-- Loop `for pos in ps: write pos` (fill a whole group). -/
def writeAll (v : Nat) : List Cell → Grid → Grid
  | [], g => g
  | p :: ps, g => writeAll v ps (setCell g p v)

/-- Lines 87-93: the inner corner loop; state is (grid, blue_count, current_vertex_count). -/
def fillCornerGroupBlue (vc hc : ℤ) : List Cell → Grid → ℤ → ℤ → Grid × ℤ × ℤ
  | [], g, blue, cvc => (g, blue, cvc)
  | pos :: rest, g, blue, cvc =>
    if cvc ≥ vc ∨ blue ≥ hc then (g, blue, cvc)
    else fillCornerGroupBlue vc hc rest (setCell g pos 2) (blue + 1) (cvc + 1)

/-- Lines 86-95: blue allocation over the corner groups. -/
def fillCornersBlue (vc hc : ℤ) : List (List Cell) → Grid → ℤ → ℤ → Grid × ℤ × ℤ
  | [], g, blue, cvc => (g, blue, cvc)
  | group :: rest, g, blue, cvc =>
    let s := fillCornerGroupBlue vc hc group g blue cvc
    if s.2.2 ≥ vc then s
    else fillCornersBlue vc hc rest s.1 s.2.1 s.2.2

/-- Lines 109-135: blue allocation over the edge groups; state is
(grid, blue_count, current_edge_count). -/
def fillEdgesBlue (ec hc : ℤ) : List (List Cell) → Grid → ℤ → ℤ → Grid × ℤ × ℤ
  | [], g, blue, cec => (g, blue, cec)
  | group :: rest, g, blue, cec =>
    let avail := group.filter (fun p => decide (p ∈ edges) && (g p == 0))
    let ptf : ℤ := min (avail.length : ℤ) (hc - blue)
    if ptf ≤ 0 then (g, blue, cec)
    else
      let res :=
        if ptf ≥ 2 ∧ ptf % 2 = 0 ∧ avail.length % 2 = 0 then
          fillPairG avail 2 g (pairIndices ptf.toNat)
        else
          fillSeqG avail 2 g (List.range ptf.toNat)
      let blue' := blue + res.2
      let cec' := cec + res.2
      if cec' ≥ ec ∨ blue' ≥ hc then (res.1, blue', cec')
      else fillEdgesBlue ec hc rest res.1 blue' cec'

/-- Lines 147-179: blue allocation over the face groups; state is
(grid, blue_count, current_face_count, remaining_blue). -/
def fillFacesBlue (fc : ℤ) : List (List Cell) → Grid → ℤ → ℤ → ℤ → Grid × ℤ × ℤ × ℤ
  | [], g, blue, cfc, rem => (g, blue, cfc, rem)
  | group :: rest, g, blue, cfc, rem =>
    let avail := group.filter (fun p => decide (p ∈ faces) && (g p == 0))
    let s :=
      if (avail.length : ℤ) ≤ rem then
        (writeAll 2 avail g, blue + (avail.length : ℤ), cfc + (avail.length : ℤ),
          rem - (avail.length : ℤ))
      else if group.length = 1 then
        if rem ≥ 1 then (setCell g (group.headD (0,0)) 2, blue + 1, cfc + 1, rem - 1)
        else (g, blue, cfc, rem)
      else if rem ≥ 2 then
        let pairs : ℤ := min (rem / 2) ((avail.length : ℤ) / 2)
        let res := fillPairG avail 2 g ((List.range pairs.toNat).map (fun k => 2 * k))
        (res.1, blue + (res.2 : ℤ), cfc + (res.2 : ℤ), rem - (res.2 : ℤ))
      else (g, blue, cfc, rem)
    if s.2.2.2 ≤ 0 then s
    else if s.2.2.1 ≥ fc then s
    else fillFacesBlue fc rest s.1 s.2.1 s.2.2.1 s.2.2.2

/-- One green group body (lines 187-215 / 221-249 / 258-286): compute the empty
cells of the group, fill min(available, remaining) of them with green using the
fill-all / pairwise / sequential rule, and return the new grid together with the
number of cells written. -/
def greenGroupFill (group : List Cell) (g : Grid) (tgr : ℤ) : Grid × ℤ :=
  let avail := group.filter (fun p => g p == 0)
  let ptf : ℤ := min (avail.length : ℤ) tgr
  if ptf > 0 then
    if ptf = (avail.length : ℤ) then
      (writeAll 1 avail g, (avail.length : ℤ))
    else if ptf % 2 = 0 ∧ avail.length % 2 = 0 then
      let res := fillPairG avail 1 g (pairIndices ptf.toNat)
      (res.1, (res.2 : ℤ))
    else
      let res := fillSeqU avail 1 g (List.range ptf.toNat)
      (res.1, (res.2 : ℤ))
  else (g, 0)

/-- Lines 186-217: green allocation over the face groups; state is
(grid, green_count, current_face_count, target_green_remaining). -/
def fillFacesGreen (fc : ℤ) : List (List Cell) → Grid → ℤ → ℤ → ℤ → Grid × ℤ × ℤ × ℤ
  | [], g, green, cfc, tgr => (g, green, cfc, tgr)
  | group :: rest, g, green, cfc, tgr =>
    let res := greenGroupFill group g tgr
    let green' := green + res.2
    let cfc' := cfc + res.2
    let tgr' := tgr - res.2
    if cfc' ≥ fc then (res.1, green', cfc', tgr')
    else fillFacesGreen fc rest res.1 green' cfc' tgr'

/-- Lines 220-254 and 257-291: green allocation over the corner groups (and,
with the group list reversed, the edge groups); state is
(grid, green_count, role_count, target_green_remaining). -/
def fillGreenLoop (ch : ℤ) : List (List Cell) → Grid → ℤ → ℤ → ℤ → Grid × ℤ × ℤ × ℤ
  | [], g, green, cnt, tgr => (g, green, cnt, tgr)
  | group :: rest, g, green, cnt, tgr =>
    let res := greenGroupFill group g tgr
    let green' := green + res.2
    let cnt' := cnt + res.2
    let tgr' := tgr - res.2
    if tgr' ≤ 0 then (res.1, green', cnt', tgr')
    else if cnt' ≥ ch then (res.1, green', cnt', tgr')
    else fillGreenLoop ch rest res.1 green' cnt' tgr'

/-- The allocation pipeline of `create_facet_grid_pattern`, as a function of the
four derived integer counts (lines 63-291). -/
def allocCore (vc ec fc hc : ℤ) : Grid :=
  let s1 := fillCornersBlue vc hc corner_groups emptyGrid 0 0
  let s2 := fillEdgesBlue ec hc edge_groups s1.1 s1.2.1 0
  let total_chains_target := (vc + ec) + fc
  let remaining_blue := min (total_chains_target - s2.2.1) (hc - s2.2.1)
  let s3 := fillFacesBlue fc face_groups s2.1 s2.2.1 0 remaining_blue
  let nhc := (vc + ec + fc) - hc
  let s4 := fillFacesGreen fc face_groups s3.1 0 s3.2.2.1 nhc
  let s5 := fillGreenLoop vc corner_groups s4.1 s4.2.1 s1.2.2 s4.2.2.2
  let s6 := fillGreenLoop ec edge_groups.reverse s5.1 s5.2.1 s2.2.2 s5.2.2.2
  s6.1

/-- Lines 4-293: the full allocator, from the four rational parameters. -/
def create_facet_grid_pattern (vertex_gd edge_gd face_gd blue_ratio : ℚ) : Grid :=
  allocCore (vertex_chains vertex_gd) (edge_chains edge_gd) (face_chains face_gd)
    (hydrophobic_count vertex_gd edge_gd face_gd blue_ratio)

/-- Number of grid cells carrying label `v`. -/
def countVal (g : Grid) (v : Nat) : Nat := (allCells.filter (fun c => g c == v)).length

/-- Number of filled (non-empty) grid cells. -/
def countFilled (g : Grid) : Nat := (allCells.filter (fun c => !(g c == 0))).length

/-- Number of filled cells among a given role's cell list. -/
def countRoleFilled (role : List Cell) (g : Grid) : Nat :=
  (role.filter (fun p => !(g p == 0))).length

/-! ### Basic lemmas about grids and counting -/

theorem setCell_self (g : Grid) (p : Cell) (v : Nat) : setCell g p v p = v := by
  simp [setCell]

theorem setCell_of_ne (g : Grid) (p q : Cell) (v : Nat) (h : q ≠ p) :
    setCell g p v q = g q := by
  simp [setCell, h]

/-- How often a cell occurs in a list. -/
def countCell (l : List Cell) (p : Cell) : Nat := (l.filter (fun c => decide (c = p))).length

theorem countCell_le_one_of_nodup :
    ∀ l : List Cell, l.Nodup → ∀ p, countCell l p ≤ 1 := by
  intro l
  induction l with
  | nil =>
    intro _ p
    simp [countCell]
  | cons c t ih =>
    intro hl p
    rw [List.nodup_cons] at hl
    have iht := ih hl.2 p
    unfold countCell at iht ⊢
    rw [List.filter_cons]
    by_cases h : c = p
    · subst h
      have ht : (t.filter (fun x => decide (x = c))).length = 0 := by
        rw [List.length_eq_zero, List.filter_eq_nil_iff]
        intro a ha
        simp only [decide_eq_true_eq]
        intro hac
        exact hl.1 (hac ▸ ha)
      simp [ht]
    · simpa [h] using iht

theorem filter_length_le_of_agree (f f' : Cell → Bool) (p : Cell)
    (h : ∀ c, c ≠ p → f' c = f c) :
    ∀ l : List Cell, (l.filter f').length ≤ (l.filter f).length + countCell l p := by
  intro l
  induction l with
  | nil => simp [countCell]
  | cons c t ih =>
    unfold countCell at ih ⊢
    rw [List.filter_cons, List.filter_cons, List.filter_cons]
    by_cases hc : c = p
    · subst hc
      by_cases hf : f c = true <;> by_cases hf' : f' c = true <;>
        simp [hf, hf'] <;> omega
    · have hcf := h c hc
      by_cases hf : f c = true <;> simp [hcf, hf, hc] <;> omega

theorem filter_length_mono (f f' : Cell → Bool)
    (h : ∀ c, f' c = true → f c = true) :
    ∀ l : List Cell, (l.filter f').length ≤ (l.filter f).length := by
  intro l
  induction l with
  | nil => simp
  | cons c t ih =>
    by_cases hf' : f' c = true
    · simp [List.filter_cons, hf', h c hf']
      omega
    · by_cases hf : f c = true <;> simp [List.filter_cons, hf, hf'] <;> omega

theorem allCells_nodup : allCells.Nodup := by decide

theorem count_allCells_le_one (p : Cell) : countCell allCells p ≤ 1 :=
  countCell_le_one_of_nodup allCells allCells_nodup p

theorem countVal_setCell_le (g : Grid) (p : Cell) (v : Nat) :
    countVal (setCell g p v) v ≤ countVal g v + 1 := by
  have h := filter_length_le_of_agree (fun c => g c == v) (fun c => setCell g p v c == v) p
    (fun c hc => by
      show (setCell g p v c == v) = (g c == v)
      rw [setCell_of_ne g p c v hc]) allCells
  have h2 := count_allCells_le_one p
  unfold countVal
  omega

theorem countVal_setCell_ne_le (g : Grid) (p : Cell) (v w : Nat) (hvw : v ≠ w) :
    countVal (setCell g p v) w ≤ countVal g w := by
  refine filter_length_mono (fun c => g c == w) (fun c => setCell g p v c == w)
    (fun c hc => ?_) allCells
  replace hc : (setCell g p v c == w) = true := hc
  show (g c == w) = true
  by_cases h : c = p
  · subst h
    rw [setCell_self] at hc
    exact absurd (by simpa using hc) hvw
  · rwa [setCell_of_ne g p c v h] at hc

theorem countFilled_setCell_le (g : Grid) (p : Cell) (v : Nat) :
    countFilled (setCell g p v) ≤ countFilled g + 1 := by
  have h := filter_length_le_of_agree (fun c => !(g c == 0)) (fun c => !(setCell g p v c == 0)) p
    (fun c hc => by
      show (!(setCell g p v c == 0)) = (!(g c == 0))
      rw [setCell_of_ne g p c v hc]) allCells
  have h2 := count_allCells_le_one p
  unfold countFilled
  omega

theorem pyInt_of_nonneg {q : ℚ} (h : 0 ≤ q) : pyInt q = ⌊q⌋ := by
  rw [pyInt, if_neg (not_lt.mpr h)]

theorem pyInt_nonneg {q : ℚ} (h : 0 ≤ q) : 0 ≤ pyInt q := by
  rw [pyInt_of_nonneg h]
  exact Int.floor_nonneg.mpr h

/-! ### Which cells a fill step may touch -/

/-- `writesIn A v g g'` says the step from `g` to `g'` only changed cells of the
list `A`, writing the label `v` there. -/
def writesIn (A : List Cell) (v : Nat) (g g' : Grid) : Prop :=
  ∀ c, g' c = g c ∨ (c ∈ A ∧ g' c = v)

theorem writesIn_refl (A : List Cell) (v : Nat) (g : Grid) : writesIn A v g g :=
  fun _ => Or.inl rfl

theorem writesIn_trans {A : List Cell} {v : Nat} {g g' g'' : Grid}
    (h1 : writesIn A v g g') (h2 : writesIn A v g' g'') : writesIn A v g g'' := by
  intro c
  rcases h2 c with h2c | ⟨hm, hv⟩
  · rcases h1 c with h1c | ⟨hm, hv⟩
    · exact Or.inl (h2c.trans h1c)
    · exact Or.inr ⟨hm, h2c.trans hv⟩
  · exact Or.inr ⟨hm, hv⟩

theorem writesIn_mono {A B : List Cell} {v : Nat} {g g' : Grid}
    (hAB : ∀ c, c ∈ A → c ∈ B) (h : writesIn A v g g') : writesIn B v g g' := by
  intro c
  rcases h c with hc | ⟨hm, hv⟩
  · exact Or.inl hc
  · exact Or.inr ⟨hAB c hm, hv⟩

theorem writesIn_setCell {A : List Cell} {p : Cell} (v : Nat) (g : Grid)
    (hp : p ∈ A) : writesIn A v g (setCell g p v) := by
  intro c
  by_cases h : c = p
  · subst h
    exact Or.inr ⟨hp, setCell_self g c v⟩
  · exact Or.inl (setCell_of_ne g p c v h)

theorem getD_mem_of_lt (l : List Cell) (i : Nat) (h : i < l.length) :
    l.getD i (0,0) ∈ l := by
  rw [List.getD_eq_getElem l (0,0) h]
  exact List.getElem_mem h

/-! ### Lemmas about the loop helpers -/

theorem fillPairG_writesIn (avail : List Cell) (v : Nat) :
    ∀ (idxs : List Nat) (g : Grid), writesIn avail v g (fillPairG avail v g idxs).1 := by
  intro idxs
  induction idxs with
  | nil =>
    intro g
    exact writesIn_refl _ _ _
  | cons i idxs ih =>
    intro g
    by_cases h : i + 1 < avail.length
    · have h1 : i < avail.length := Nat.lt_of_succ_lt h
      have e : fillPairG avail v g (i :: idxs) =
          ((fillPairG avail v
              (setCell (setCell g (avail.getD i (0,0)) v) (avail.getD (i+1) (0,0)) v) idxs).1,
           (fillPairG avail v
              (setCell (setCell g (avail.getD i (0,0)) v) (avail.getD (i+1) (0,0)) v) idxs).2 + 2) := by
        simp only [fillPairG, if_pos h]
      rw [e]
      dsimp only
      have w1 : writesIn avail v g (setCell g (avail.getD i (0,0)) v) :=
        writesIn_setCell v g (getD_mem_of_lt avail i h1)
      have w2 : writesIn avail v (setCell g (avail.getD i (0,0)) v)
          (setCell (setCell g (avail.getD i (0,0)) v) (avail.getD (i+1) (0,0)) v) :=
        writesIn_setCell v _ (getD_mem_of_lt avail (i+1) h)
      exact writesIn_trans (writesIn_trans w1 w2) (ih _)
    · have e : fillPairG avail v g (i :: idxs) = fillPairG avail v g idxs := by
        simp only [fillPairG, if_neg h]
      rw [e]
      exact ih g

theorem fillPairG_counts (avail : List Cell) (v : Nat) :
    ∀ (idxs : List Nat) (g : Grid),
      countVal (fillPairG avail v g idxs).1 v ≤ countVal g v + (fillPairG avail v g idxs).2 ∧
      countFilled (fillPairG avail v g idxs).1 ≤ countFilled g + (fillPairG avail v g idxs).2 ∧
      (∀ w, v ≠ w → countVal (fillPairG avail v g idxs).1 w ≤ countVal g w) ∧
      (fillPairG avail v g idxs).2 ≤ 2 * idxs.length := by
  intro idxs
  induction idxs with
  | nil =>
    intro g
    refine ⟨by simp [fillPairG], by simp [fillPairG], fun w _ => by simp [fillPairG],
      by simp [fillPairG]⟩
  | cons i idxs ih =>
    intro g
    by_cases h : i + 1 < avail.length
    · have e : fillPairG avail v g (i :: idxs) =
          ((fillPairG avail v
              (setCell (setCell g (avail.getD i (0,0)) v) (avail.getD (i+1) (0,0)) v) idxs).1,
           (fillPairG avail v
              (setCell (setCell g (avail.getD i (0,0)) v) (avail.getD (i+1) (0,0)) v) idxs).2 + 2) := by
        simp only [fillPairG, if_pos h]
      rw [e]
      dsimp only
      obtain ⟨ih1, ih2, ih3, ih4⟩ :=
        ih (setCell (setCell g (avail.getD i (0,0)) v) (avail.getD (i+1) (0,0)) v)
      have c1 := countVal_setCell_le g (avail.getD i (0,0)) v
      have c2 := countVal_setCell_le (setCell g (avail.getD i (0,0)) v) (avail.getD (i+1) (0,0)) v
      have d1 := countFilled_setCell_le g (avail.getD i (0,0)) v
      have d2 := countFilled_setCell_le (setCell g (avail.getD i (0,0)) v) (avail.getD (i+1) (0,0)) v
      refine ⟨by omega, by omega, fun w hw => ?_, by simp only [List.length_cons]; omega⟩
      have e1 := countVal_setCell_ne_le g (avail.getD i (0,0)) v w hw
      have e2 := countVal_setCell_ne_le (setCell g (avail.getD i (0,0)) v) (avail.getD (i+1) (0,0)) v w hw
      have := ih3 w hw
      omega
    · have e : fillPairG avail v g (i :: idxs) = fillPairG avail v g idxs := by
        simp only [fillPairG, if_neg h]
      rw [e]
      obtain ⟨ih1, ih2, ih3, ih4⟩ := ih g
      exact ⟨ih1, ih2, ih3, by simp only [List.length_cons]; omega⟩

theorem fillSeqG_writesIn (avail : List Cell) (v : Nat) :
    ∀ (idxs : List Nat) (g : Grid), writesIn avail v g (fillSeqG avail v g idxs).1 := by
  intro idxs
  induction idxs with
  | nil =>
    intro g
    exact writesIn_refl _ _ _
  | cons i idxs ih =>
    intro g
    by_cases h : i < avail.length
    · have e : fillSeqG avail v g (i :: idxs) =
          ((fillSeqG avail v (setCell g (avail.getD i (0,0)) v) idxs).1,
           (fillSeqG avail v (setCell g (avail.getD i (0,0)) v) idxs).2 + 1) := by
        simp only [fillSeqG, if_pos h]
      rw [e]
      dsimp only
      exact writesIn_trans (writesIn_setCell v g (getD_mem_of_lt avail i h)) (ih _)
    · have e : fillSeqG avail v g (i :: idxs) = fillSeqG avail v g idxs := by
        simp only [fillSeqG, if_neg h]
      rw [e]
      exact ih g

theorem fillSeqG_counts (avail : List Cell) (v : Nat) :
    ∀ (idxs : List Nat) (g : Grid),
      countVal (fillSeqG avail v g idxs).1 v ≤ countVal g v + (fillSeqG avail v g idxs).2 ∧
      countFilled (fillSeqG avail v g idxs).1 ≤ countFilled g + (fillSeqG avail v g idxs).2 ∧
      (∀ w, v ≠ w → countVal (fillSeqG avail v g idxs).1 w ≤ countVal g w) ∧
      (fillSeqG avail v g idxs).2 ≤ idxs.length := by
  intro idxs
  induction idxs with
  | nil =>
    intro g
    refine ⟨by simp [fillSeqG], by simp [fillSeqG], fun w _ => by simp [fillSeqG],
      by simp [fillSeqG]⟩
  | cons i idxs ih =>
    intro g
    by_cases h : i < avail.length
    · have e : fillSeqG avail v g (i :: idxs) =
          ((fillSeqG avail v (setCell g (avail.getD i (0,0)) v) idxs).1,
           (fillSeqG avail v (setCell g (avail.getD i (0,0)) v) idxs).2 + 1) := by
        simp only [fillSeqG, if_pos h]
      rw [e]
      dsimp only
      obtain ⟨ih1, ih2, ih3, ih4⟩ := ih (setCell g (avail.getD i (0,0)) v)
      have c1 := countVal_setCell_le g (avail.getD i (0,0)) v
      have d1 := countFilled_setCell_le g (avail.getD i (0,0)) v
      refine ⟨by omega, by omega, fun w hw => ?_, by simp only [List.length_cons]; omega⟩
      have e1 := countVal_setCell_ne_le g (avail.getD i (0,0)) v w hw
      have := ih3 w hw
      omega
    · have e : fillSeqG avail v g (i :: idxs) = fillSeqG avail v g idxs := by
        simp only [fillSeqG, if_neg h]
      rw [e]
      obtain ⟨ih1, ih2, ih3, ih4⟩ := ih g
      exact ⟨ih1, ih2, ih3, by simp only [List.length_cons]; omega⟩

theorem fillSeqU_writesIn (avail : List Cell) (v : Nat) :
    ∀ (idxs : List Nat), (∀ i ∈ idxs, i < avail.length) →
      ∀ (g : Grid), writesIn avail v g (fillSeqU avail v g idxs).1 := by
  intro idxs
  induction idxs with
  | nil =>
    intro _ g
    exact writesIn_refl _ _ _
  | cons i idxs ih =>
    intro hbound g
    have e : fillSeqU avail v g (i :: idxs) =
        ((fillSeqU avail v (setCell g (avail.getD i (0,0)) v) idxs).1,
         (fillSeqU avail v (setCell g (avail.getD i (0,0)) v) idxs).2 + 1) := by
      simp only [fillSeqU]
    rw [e]
    dsimp only
    have hi : i < avail.length := hbound i (List.mem_cons_self i idxs)
    exact writesIn_trans (writesIn_setCell v g (getD_mem_of_lt avail i hi))
      (ih (fun j hj => hbound j (List.mem_cons_of_mem i hj)) _)

theorem fillSeqU_counts (avail : List Cell) (v : Nat) :
    ∀ (idxs : List Nat) (g : Grid),
      countVal (fillSeqU avail v g idxs).1 v ≤ countVal g v + (fillSeqU avail v g idxs).2 ∧
      countFilled (fillSeqU avail v g idxs).1 ≤ countFilled g + (fillSeqU avail v g idxs).2 ∧
      (∀ w, v ≠ w → countVal (fillSeqU avail v g idxs).1 w ≤ countVal g w) ∧
      (fillSeqU avail v g idxs).2 = idxs.length := by
  intro idxs
  induction idxs with
  | nil =>
    intro g
    refine ⟨by simp [fillSeqU], by simp [fillSeqU], fun w _ => by simp [fillSeqU],
      by simp [fillSeqU]⟩
  | cons i idxs ih =>
    intro g
    have e : fillSeqU avail v g (i :: idxs) =
        ((fillSeqU avail v (setCell g (avail.getD i (0,0)) v) idxs).1,
         (fillSeqU avail v (setCell g (avail.getD i (0,0)) v) idxs).2 + 1) := by
      simp only [fillSeqU]
    rw [e]
    dsimp only
    obtain ⟨ih1, ih2, ih3, ih4⟩ := ih (setCell g (avail.getD i (0,0)) v)
    have c1 := countVal_setCell_le g (avail.getD i (0,0)) v
    have d1 := countFilled_setCell_le g (avail.getD i (0,0)) v
    refine ⟨by omega, by omega, fun w hw => ?_, by simp only [List.length_cons]; omega⟩
    have e1 := countVal_setCell_ne_le g (avail.getD i (0,0)) v w hw
    have := ih3 w hw
    omega

theorem writeAll_writesIn (v : Nat) :
    ∀ (ps : List Cell) (g : Grid), writesIn ps v g (writeAll v ps g) := by
  intro ps
  induction ps with
  | nil =>
    intro g
    exact writesIn_refl _ _ _
  | cons p ps ih =>
    intro g
    have e : writeAll v (p :: ps) g = writeAll v ps (setCell g p v) := by
      simp only [writeAll]
    rw [e]
    refine writesIn_trans
      (writesIn_setCell v g (List.mem_cons_self p ps))
      (writesIn_mono (fun c hc => List.mem_cons_of_mem p hc) (ih _))

theorem writeAll_counts (v : Nat) :
    ∀ (ps : List Cell) (g : Grid),
      countVal (writeAll v ps g) v ≤ countVal g v + ps.length ∧
      countFilled (writeAll v ps g) ≤ countFilled g + ps.length ∧
      (∀ w, v ≠ w → countVal (writeAll v ps g) w ≤ countVal g w) := by
  intro ps
  induction ps with
  | nil =>
    intro g
    exact ⟨by simp [writeAll], by simp [writeAll], fun w _ => by simp [writeAll]⟩
  | cons p ps ih =>
    intro g
    have e : writeAll v (p :: ps) g = writeAll v ps (setCell g p v) := by
      simp only [writeAll]
    rw [e]
    obtain ⟨ih1, ih2, ih3⟩ := ih (setCell g p v)
    have c1 := countVal_setCell_le g p v
    have d1 := countFilled_setCell_le g p v
    refine ⟨by simp only [List.length_cons]; omega, by simp only [List.length_cons]; omega, fun w hw => ?_⟩
    have e1 := countVal_setCell_ne_le g p v w hw
    have := ih3 w hw
    omega

/-! ### Step relations between stages of the allocation -/

theorem setCell_val_cases (g : Grid) (p c : Cell) (v : Nat) :
    setCell g p v c = g c ∨ setCell g p v c = v := by
  by_cases h : c = p
  · subst h
    exact Or.inr (setCell_self g c v)
  · exact Or.inl (setCell_of_ne g p c v h)

/-- Between two stages, every cell keeps its label or carries the stage color `w`. -/
def valOr (w : Nat) (g g' : Grid) : Prop :=
  ∀ c, g' c = g c ∨ g' c = w

theorem valOr_refl (w : Nat) (g : Grid) : valOr w g g := fun _ => Or.inl rfl

theorem valOr_trans {w : Nat} {g g' g'' : Grid}
    (h1 : valOr w g g') (h2 : valOr w g' g'') : valOr w g g'' := by
  intro c
  rcases h2 c with h2c | h2c
  · rcases h1 c with h1c | h1c
    · exact Or.inl (h2c.trans h1c)
    · exact Or.inr (h2c.trans h1c)
  · exact Or.inr h2c

/-- Between two stages, a cell either keeps its label or goes from empty (0) to
the stage color `w`: exactly what a fill loop that only writes empty cells does. -/
def stepOK (w : Nat) (g g' : Grid) : Prop :=
  ∀ c, g' c = g c ∨ (g c = 0 ∧ g' c = w)

theorem stepOK_refl (w : Nat) (g : Grid) : stepOK w g g := fun _ => Or.inl rfl

theorem stepOK_trans {w : Nat} {g g' g'' : Grid}
    (h1 : stepOK w g g') (h2 : stepOK w g' g'') : stepOK w g g'' := by
  intro c
  rcases h2 c with h2c | ⟨hz, hw⟩
  · rcases h1 c with h1c | ⟨hz, hw⟩
    · exact Or.inl (h2c.trans h1c)
    · exact Or.inr ⟨hz, h2c.trans hw⟩
  · rcases h1 c with h1c | ⟨hz', hw'⟩
    · exact Or.inr ⟨h1c ▸ hz, hw⟩
    · rw [hw'] at hz
      exact Or.inl (by rw [hw, hz, hz'])

theorem stepOK_valOr {w : Nat} {g g' : Grid} (h : stepOK w g g') : valOr w g g' := by
  intro c
  rcases h c with hc | ⟨_, hw⟩
  · exact Or.inl hc
  · exact Or.inr hw

theorem stepOK_of_writesIn {A : List Cell} {v : Nat} {g g' : Grid}
    (hA : ∀ c ∈ A, g c = 0) (h : writesIn A v g g') : stepOK v g g' := by
  intro c
  rcases h c with hc | ⟨hm, hv⟩
  · exact Or.inl hc
  · exact Or.inr ⟨hA c hm, hv⟩

/-- A cell's label changes at most once, from empty to a non-empty value. -/
def monoStep (g g' : Grid) : Prop :=
  ∀ c, g' c ≠ g c → g c = 0 ∧ g' c ≠ 0

theorem monoStep_of_stepOK {w : Nat} {g g' : Grid} (hw : w ≠ 0)
    (h : stepOK w g g') : monoStep g g' := by
  intro c hc
  rcases h c with h1 | ⟨hz, hv⟩
  · exact absurd h1 hc
  · exact ⟨hz, hv ▸ hw⟩

/-! ### Phase 1: blue on the corner groups -/

/-- The blue count / filled count bookkeeping carried through the blue phases. -/
def blueInv (hc : ℤ) (g : Grid) (blue : ℤ) : Prop :=
  (countVal g 2 : ℤ) ≤ blue ∧ (countFilled g : ℤ) ≤ blue ∧ blue ≤ hc

theorem fillCornerGroupBlue_val (vc hc : ℤ) :
    ∀ (group : List Cell) (g : Grid) (blue cvc : ℤ),
      valOr 2 g (fillCornerGroupBlue vc hc group g blue cvc).1 := by
  intro group
  induction group with
  | nil =>
    intro g blue cvc
    exact valOr_refl _ _
  | cons pos rest ih =>
    intro g blue cvc
    rw [fillCornerGroupBlue]
    by_cases h : cvc ≥ vc ∨ blue ≥ hc
    · rw [if_pos h]
      exact valOr_refl _ _
    · rw [if_neg h]
      refine valOr_trans (fun c => setCell_val_cases g pos c 2) (ih _ _ _)

theorem fillCornerGroupBlue_inv (vc hc : ℤ) :
    ∀ (group : List Cell) (g : Grid) (blue cvc : ℤ),
      blueInv hc g blue →
      blueInv hc (fillCornerGroupBlue vc hc group g blue cvc).1
        (fillCornerGroupBlue vc hc group g blue cvc).2.1 := by
  intro group
  induction group with
  | nil =>
    intro g blue cvc hinv
    exact hinv
  | cons pos rest ih =>
    intro g blue cvc hinv
    rw [fillCornerGroupBlue]
    by_cases h : cvc ≥ vc ∨ blue ≥ hc
    · rw [if_pos h]
      exact hinv
    · rw [if_neg h]
      push_neg at h
      obtain ⟨i1, i2, i3⟩ := hinv
      have c1 := countVal_setCell_le g pos 2
      have d1 := countFilled_setCell_le g pos 2
      exact ih (setCell g pos 2) (blue + 1) (cvc + 1) ⟨by omega, by omega, by omega⟩

theorem fillCornersBlue_val (vc hc : ℤ) :
    ∀ (groups : List (List Cell)) (g : Grid) (blue cvc : ℤ),
      valOr 2 g (fillCornersBlue vc hc groups g blue cvc).1 := by
  intro groups
  induction groups with
  | nil =>
    intro g blue cvc
    exact valOr_refl _ _
  | cons group rest ih =>
    intro g blue cvc
    rw [fillCornersBlue]
    split
    · exact fillCornerGroupBlue_val vc hc group g blue cvc
    · exact valOr_trans (fillCornerGroupBlue_val vc hc group g blue cvc) (ih _ _ _)

theorem fillCornersBlue_inv (vc hc : ℤ) :
    ∀ (groups : List (List Cell)) (g : Grid) (blue cvc : ℤ),
      blueInv hc g blue →
      blueInv hc (fillCornersBlue vc hc groups g blue cvc).1
        (fillCornersBlue vc hc groups g blue cvc).2.1 := by
  intro groups
  induction groups with
  | nil =>
    intro g blue cvc hinv
    exact hinv
  | cons group rest ih =>
    intro g blue cvc hinv
    rw [fillCornersBlue]
    split
    · exact fillCornerGroupBlue_inv vc hc group g blue cvc hinv
    · exact ih _ _ _ (fillCornerGroupBlue_inv vc hc group g blue cvc hinv)

/-! ### Phase 2: blue on the edge groups -/

theorem pairIndices_length (n : Nat) : (pairIndices n).length = (n + 1) / 2 := by
  simp [pairIndices]

theorem fillEdgesBlue_stepOK (ec hc : ℤ) :
    ∀ (groups : List (List Cell)) (g : Grid) (blue cec : ℤ),
      stepOK 2 g (fillEdgesBlue ec hc groups g blue cec).1 := by
  intro groups
  induction groups with
  | nil =>
    intro g blue cec
    exact stepOK_refl _ _
  | cons group rest ih =>
    intro g blue cec
    rw [fillEdgesBlue]
    set avail := group.filter (fun p => decide (p ∈ edges) && (g p == 0)) with havail
    set ptf : ℤ := min (avail.length : ℤ) (hc - blue) with hptf
    have hav : ∀ c ∈ avail, g c = 0 := by
      intro c hcav
      rw [havail, List.mem_filter] at hcav
      have h2 := hcav.2
      simp only [Bool.and_eq_true, beq_iff_eq] at h2
      exact h2.2
    by_cases h0 : ptf ≤ 0
    · rw [if_pos h0]
      exact stepOK_refl _ _
    · rw [if_neg h0]
      by_cases hC : (ptf ≥ 2 ∧ ptf % 2 = 0 ∧ avail.length % 2 = 0)
      · rw [if_pos hC]
        dsimp only
        have hres : stepOK 2 g (fillPairG avail 2 g (pairIndices ptf.toNat)).1 :=
          stepOK_of_writesIn hav (fillPairG_writesIn avail 2 (pairIndices ptf.toNat) g)
        split
        · exact hres
        · exact stepOK_trans hres (ih _ _ _)
      · rw [if_neg hC]
        dsimp only
        have hres : stepOK 2 g (fillSeqG avail 2 g (List.range ptf.toNat)).1 :=
          stepOK_of_writesIn hav (fillSeqG_writesIn avail 2 (List.range ptf.toNat) g)
        split
        · exact hres
        · exact stepOK_trans hres (ih _ _ _)

theorem fillEdgesBlue_inv (ec hc : ℤ) :
    ∀ (groups : List (List Cell)) (g : Grid) (blue cec : ℤ),
      blueInv hc g blue →
      blueInv hc (fillEdgesBlue ec hc groups g blue cec).1
        (fillEdgesBlue ec hc groups g blue cec).2.1 := by
  intro groups
  induction groups with
  | nil =>
    intro g blue cec hinv
    exact hinv
  | cons group rest ih =>
    intro g blue cec hinv
    obtain ⟨i1, i2, i3⟩ := hinv
    rw [fillEdgesBlue]
    set avail := group.filter (fun p => decide (p ∈ edges) && (g p == 0)) with havail
    set ptf : ℤ := min (avail.length : ℤ) (hc - blue) with hptf
    have hple : ptf ≤ hc - blue := min_le_right _ _
    by_cases h0 : ptf ≤ 0
    · rw [if_pos h0]
      exact ⟨i1, i2, i3⟩
    · rw [if_neg h0]
      have hpnn : (ptf.toNat : ℤ) = ptf := Int.toNat_of_nonneg (by omega)
      by_cases hC : (ptf ≥ 2 ∧ ptf % 2 = 0 ∧ avail.length % 2 = 0)
      · rw [if_pos hC]
        obtain ⟨p1, p2, p3, p4⟩ := fillPairG_counts avail 2 (pairIndices ptf.toNat) g
        rw [pairIndices_length] at p4
        have hk : ((fillPairG avail 2 g (pairIndices ptf.toNat)).2 : ℤ) ≤ ptf := by
          obtain ⟨hC1, hC2, _⟩ := hC
          omega
        dsimp only
        split
        · dsimp only
          exact ⟨by omega, by omega, by omega⟩
        · exact ih _ _ _ ⟨by omega, by omega, by omega⟩
      · rw [if_neg hC]
        obtain ⟨p1, p2, p3, p4⟩ := fillSeqG_counts avail 2 (List.range ptf.toNat) g
        rw [List.length_range] at p4
        have hk : ((fillSeqG avail 2 g (List.range ptf.toNat)).2 : ℤ) ≤ ptf := by omega
        dsimp only
        split
        · dsimp only
          exact ⟨by omega, by omega, by omega⟩
        · exact ih _ _ _ ⟨by omega, by omega, by omega⟩

/-! ### Phase 3: blue on the face groups -/

theorem fillFacesBlue_stepOK (fc : ℤ) :
    ∀ (groups : List (List Cell)) (g : Grid) (blue cfc rem : ℤ),
      stepOK 2 g (fillFacesBlue fc groups g blue cfc rem).1 := by
  intro groups
  induction groups with
  | nil =>
    intro g blue cfc rem
    exact stepOK_refl _ _
  | cons group rest ih =>
    intro g blue cfc rem
    rw [fillFacesBlue]
    set avail := group.filter (fun p => decide (p ∈ faces) && (g p == 0)) with havail
    have hav : ∀ c ∈ avail, g c = 0 := by
      intro c hcav
      rw [havail, List.mem_filter] at hcav
      have h2 := hcav.2
      simp only [Bool.and_eq_true, beq_iff_eq] at h2
      exact h2.2
    have hlen : avail.length ≤ group.length := by
      rw [havail]
      exact List.length_filter_le _ _
    by_cases hA : (avail.length : ℤ) ≤ rem
    · rw [if_pos hA]
      dsimp only
      have hres : stepOK 2 g (writeAll 2 avail g) :=
        stepOK_of_writesIn hav (writeAll_writesIn 2 avail g)
      split
      · exact hres
      · split
        · exact hres
        · exact stepOK_trans hres (ih _ _ _ _)
    · rw [if_neg hA]
      by_cases hB : group.length = 1
      · rw [if_pos hB]
        by_cases hr : rem ≥ 1
        · exfalso
          omega
        · rw [if_neg hr]
          dsimp only
          split
          · exact stepOK_refl _ _
          · split
            · exact stepOK_refl _ _
            · exact ih _ _ _ _
      · rw [if_neg hB]
        by_cases hr : rem ≥ 2
        · rw [if_pos hr]
          dsimp only
          have hres : stepOK 2 g (fillPairG avail 2 g
              ((List.range (min (rem / 2) ((avail.length : ℤ) / 2)).toNat).map (fun k => 2 * k))).1 :=
            stepOK_of_writesIn hav (fillPairG_writesIn avail 2 _ g)
          split
          · exact hres
          · split
            · exact hres
            · exact stepOK_trans hres (ih _ _ _ _)
        · rw [if_neg hr]
          dsimp only
          split
          · exact stepOK_refl _ _
          · split
            · exact stepOK_refl _ _
            · exact ih _ _ _ _

theorem fillFacesBlue_inv (fc : ℤ) :
    ∀ (groups : List (List Cell)) (g : Grid) (blue cfc rem : ℤ),
      (countVal g 2 : ℤ) ≤ blue → (countFilled g : ℤ) ≤ blue → 0 ≤ rem →
      ((countVal (fillFacesBlue fc groups g blue cfc rem).1 2 : ℤ) ≤
          (fillFacesBlue fc groups g blue cfc rem).2.1 ∧
       (countFilled (fillFacesBlue fc groups g blue cfc rem).1 : ℤ) ≤
          (fillFacesBlue fc groups g blue cfc rem).2.1 ∧
       0 ≤ (fillFacesBlue fc groups g blue cfc rem).2.2.2 ∧
       (fillFacesBlue fc groups g blue cfc rem).2.1 +
          (fillFacesBlue fc groups g blue cfc rem).2.2.2 = blue + rem) := by
  intro groups
  induction groups with
  | nil =>
    intro g blue cfc rem h1 h2 h3
    exact ⟨h1, h2, h3, rfl⟩
  | cons group rest ih =>
    intro g blue cfc rem h1 h2 h3
    rw [fillFacesBlue]
    set avail := group.filter (fun p => decide (p ∈ faces) && (g p == 0)) with havail
    have hlen : avail.length ≤ group.length := by
      rw [havail]
      exact List.length_filter_le _ _
    by_cases hA : (avail.length : ℤ) ≤ rem
    · rw [if_pos hA]
      dsimp only
      obtain ⟨w1, w2, w3⟩ := writeAll_counts 2 avail g
      split
      · dsimp only
        refine ⟨by omega, by omega, by omega, by omega⟩
      · split
        · dsimp only
          refine ⟨by omega, by omega, by omega, by omega⟩
        · have := ih (writeAll 2 avail g) (blue + (avail.length : ℤ))
            (cfc + (avail.length : ℤ)) (rem - (avail.length : ℤ))
            (by omega) (by omega) (by omega)
          refine ⟨this.1, this.2.1, this.2.2.1, by omega⟩
    · rw [if_neg hA]
      by_cases hB : group.length = 1
      · rw [if_pos hB]
        by_cases hr : rem ≥ 1
        · rw [if_pos hr]
          dsimp only
          have c1 := countVal_setCell_le g (group.headD (0,0)) 2
          have d1 := countFilled_setCell_le g (group.headD (0,0)) 2
          split
          · dsimp only
            refine ⟨by omega, by omega, by omega, by omega⟩
          · split
            · dsimp only
              refine ⟨by omega, by omega, by omega, by omega⟩
            · have := ih (setCell g (group.headD (0,0)) 2) (blue + 1) (cfc + 1) (rem - 1)
                (by omega) (by omega) (by omega)
              refine ⟨this.1, this.2.1, this.2.2.1, by omega⟩
        · rw [if_neg hr]
          dsimp only
          split
          · dsimp only
            exact ⟨h1, h2, by omega, by omega⟩
          · split
            · dsimp only
              exact ⟨h1, h2, by omega, by omega⟩
            · have := ih g blue cfc rem h1 h2 h3
              refine ⟨this.1, this.2.1, this.2.2.1, by omega⟩
      · rw [if_neg hB]
        by_cases hr : rem ≥ 2
        · rw [if_pos hr]
          dsimp only
          set pairs : ℤ := min (rem / 2) ((avail.length : ℤ) / 2) with hpairs
          obtain ⟨p1, p2, p3, p4⟩ :=
            fillPairG_counts avail 2 ((List.range pairs.toNat).map (fun k => 2 * k)) g
          rw [List.length_map, List.length_range] at p4
          have hpnn : (pairs.toNat : ℤ) = pairs := Int.toNat_of_nonneg (by omega)
          have hk : ((fillPairG avail 2 g
              ((List.range pairs.toNat).map (fun k => 2 * k))).2 : ℤ) ≤ rem := by omega
          split
          · dsimp only
            refine ⟨by omega, by omega, by omega, by omega⟩
          · split
            · dsimp only
              refine ⟨by omega, by omega, by omega, by omega⟩
            · have := ih (fillPairG avail 2 g ((List.range pairs.toNat).map (fun k => 2 * k))).1
                (blue + ((fillPairG avail 2 g ((List.range pairs.toNat).map (fun k => 2 * k))).2 : ℤ))
                (cfc + ((fillPairG avail 2 g ((List.range pairs.toNat).map (fun k => 2 * k))).2 : ℤ))
                (rem - ((fillPairG avail 2 g ((List.range pairs.toNat).map (fun k => 2 * k))).2 : ℤ))
                (by omega) (by omega) (by omega)
              refine ⟨this.1, this.2.1, this.2.2.1, by omega⟩
        · rw [if_neg hr]
          dsimp only
          split
          · dsimp only
            exact ⟨h1, h2, by omega, by omega⟩
          · split
            · dsimp only
              exact ⟨h1, h2, by omega, by omega⟩
            · have := ih g blue cfc rem h1 h2 h3
              refine ⟨this.1, this.2.1, this.2.2.1, by omega⟩

/-! ### Phases 4-6: green fills -/

theorem greenGroupFill_stepOK (group : List Cell) (g : Grid) (tgr : ℤ) :
    stepOK 1 g (greenGroupFill group g tgr).1 := by
  rw [greenGroupFill]
  set avail := group.filter (fun p => g p == 0) with havail
  set ptf : ℤ := min (avail.length : ℤ) tgr with hptf
  have hav : ∀ c ∈ avail, g c = 0 := by
    intro c hcav
    rw [havail, List.mem_filter] at hcav
    have h2 := hcav.2
    simpa using h2
  have hple : ptf ≤ (avail.length : ℤ) := min_le_left _ _
  by_cases h0 : ptf > 0
  · rw [if_pos h0]
    by_cases hB : ptf = (avail.length : ℤ)
    · rw [if_pos hB]
      exact stepOK_of_writesIn hav (writeAll_writesIn 1 avail g)
    · rw [if_neg hB]
      by_cases hC : (ptf % 2 = 0 ∧ avail.length % 2 = 0)
      · rw [if_pos hC]
        exact stepOK_of_writesIn hav (fillPairG_writesIn avail 1 (pairIndices ptf.toNat) g)
      · rw [if_neg hC]
        refine stepOK_of_writesIn hav (fillSeqU_writesIn avail 1 (List.range ptf.toNat) ?_ g)
        intro i hi
        rw [List.mem_range] at hi
        omega
  · rw [if_neg h0]
    exact stepOK_refl _ _

theorem greenGroupFill_k (group : List Cell) (g : Grid) (tgr : ℤ) (htgr : 0 ≤ tgr) :
    0 ≤ (greenGroupFill group g tgr).2 ∧ (greenGroupFill group g tgr).2 ≤ tgr ∧
    (countFilled (greenGroupFill group g tgr).1 : ℤ) ≤
      (countFilled g : ℤ) + (greenGroupFill group g tgr).2 ∧
    countVal (greenGroupFill group g tgr).1 2 ≤ countVal g 2 := by
  rw [greenGroupFill]
  set avail := group.filter (fun p => g p == 0) with havail
  set ptf : ℤ := min (avail.length : ℤ) tgr with hptf
  have hple : ptf ≤ (avail.length : ℤ) := min_le_left _ _
  have hptr : ptf ≤ tgr := min_le_right _ _
  by_cases h0 : ptf > 0
  · rw [if_pos h0]
    have hpnn : (ptf.toNat : ℤ) = ptf := Int.toNat_of_nonneg (by omega)
    by_cases hB : ptf = (avail.length : ℤ)
    · rw [if_pos hB]
      obtain ⟨w1, w2, w3⟩ := writeAll_counts 1 avail g
      have w4 := w3 2 (by omega)
      dsimp only
      refine ⟨by omega, by omega, by omega, by omega⟩
    · rw [if_neg hB]
      by_cases hC : (ptf % 2 = 0 ∧ avail.length % 2 = 0)
      · rw [if_pos hC]
        obtain ⟨p1, p2, p3, p4⟩ := fillPairG_counts avail 1 (pairIndices ptf.toNat) g
        rw [pairIndices_length] at p4
        have p5 := p3 2 (by omega)
        obtain ⟨hC1, hC2⟩ := hC
        dsimp only
        refine ⟨by omega, by omega, by omega, by omega⟩
      · rw [if_neg hC]
        obtain ⟨p1, p2, p3, p4⟩ := fillSeqU_counts avail 1 (List.range ptf.toNat) g
        rw [List.length_range] at p4
        have p5 := p3 2 (by omega)
        dsimp only
        refine ⟨by omega, by omega, by omega, by omega⟩
  · rw [if_neg h0]
    dsimp only
    refine ⟨by omega, by omega, by omega, by omega⟩

theorem fillFacesGreen_stepOK (fc : ℤ) :
    ∀ (groups : List (List Cell)) (g : Grid) (green cfc tgr : ℤ),
      stepOK 1 g (fillFacesGreen fc groups g green cfc tgr).1 := by
  intro groups
  induction groups with
  | nil =>
    intro g green cfc tgr
    exact stepOK_refl _ _
  | cons group rest ih =>
    intro g green cfc tgr
    rw [fillFacesGreen]
    split
    · exact greenGroupFill_stepOK group g tgr
    · exact stepOK_trans (greenGroupFill_stepOK group g tgr) (ih _ _ _ _)

theorem fillGreenLoop_stepOK (ch : ℤ) :
    ∀ (groups : List (List Cell)) (g : Grid) (green cnt tgr : ℤ),
      stepOK 1 g (fillGreenLoop ch groups g green cnt tgr).1 := by
  intro groups
  induction groups with
  | nil =>
    intro g green cnt tgr
    exact stepOK_refl _ _
  | cons group rest ih =>
    intro g green cnt tgr
    rw [fillGreenLoop]
    split
    · exact greenGroupFill_stepOK group g tgr
    · split
      · exact greenGroupFill_stepOK group g tgr
      · exact stepOK_trans (greenGroupFill_stepOK group g tgr) (ih _ _ _ _)

theorem fillFacesGreen_inv (fc B : ℤ) :
    ∀ (groups : List (List Cell)) (g : Grid) (green cfc tgr : ℤ),
      (countFilled g : ℤ) ≤ B + green → 0 ≤ tgr →
      ((countFilled (fillFacesGreen fc groups g green cfc tgr).1 : ℤ) ≤
          B + (fillFacesGreen fc groups g green cfc tgr).2.1 ∧
       0 ≤ (fillFacesGreen fc groups g green cfc tgr).2.2.2 ∧
       (fillFacesGreen fc groups g green cfc tgr).2.1 +
          (fillFacesGreen fc groups g green cfc tgr).2.2.2 = green + tgr ∧
       countVal (fillFacesGreen fc groups g green cfc tgr).1 2 ≤ countVal g 2) := by
  intro groups
  induction groups with
  | nil =>
    intro g green cfc tgr h1 h2
    exact ⟨h1, h2, rfl, le_refl _⟩
  | cons group rest ih =>
    intro g green cfc tgr h1 h2
    rw [fillFacesGreen]
    obtain ⟨k1, k2, k3, k4⟩ := greenGroupFill_k group g tgr h2
    split
    · dsimp only
      refine ⟨by omega, by omega, by omega, k4⟩
    · have := ih (greenGroupFill group g tgr).1 (green + (greenGroupFill group g tgr).2)
        (cfc + (greenGroupFill group g tgr).2) (tgr - (greenGroupFill group g tgr).2)
        (by omega) (by omega)
      refine ⟨this.1, this.2.1, by omega, le_trans this.2.2.2 k4⟩

theorem fillGreenLoop_inv (ch B : ℤ) :
    ∀ (groups : List (List Cell)) (g : Grid) (green cnt tgr : ℤ),
      (countFilled g : ℤ) ≤ B + green → 0 ≤ tgr →
      ((countFilled (fillGreenLoop ch groups g green cnt tgr).1 : ℤ) ≤
          B + (fillGreenLoop ch groups g green cnt tgr).2.1 ∧
       0 ≤ (fillGreenLoop ch groups g green cnt tgr).2.2.2 ∧
       (fillGreenLoop ch groups g green cnt tgr).2.1 +
          (fillGreenLoop ch groups g green cnt tgr).2.2.2 = green + tgr ∧
       countVal (fillGreenLoop ch groups g green cnt tgr).1 2 ≤ countVal g 2) := by
  intro groups
  induction groups with
  | nil =>
    intro g green cnt tgr h1 h2
    exact ⟨h1, h2, rfl, le_refl _⟩
  | cons group rest ih =>
    intro g green cnt tgr h1 h2
    rw [fillGreenLoop]
    obtain ⟨k1, k2, k3, k4⟩ := greenGroupFill_k group g tgr h2
    split
    · dsimp only
      refine ⟨by omega, by omega, by omega, k4⟩
    · split
      · dsimp only
        refine ⟨by omega, by omega, by omega, k4⟩
      · have := ih (greenGroupFill group g tgr).1 (green + (greenGroupFill group g tgr).2)
          (cnt + (greenGroupFill group g tgr).2) (tgr - (greenGroupFill group g tgr).2)
          (by omega) (by omega)
        refine ⟨this.1, this.2.1, by omega, le_trans this.2.2.2 k4⟩

/-! ### Concrete values of the derived counts -/

theorem corners_length : corners.length = 12 := by decide

theorem edges_length : edges.length = 28 := by decide

theorem faces_length : faces.length = 9 := by decide

theorem vertex_chains_one : vertex_chains 1 = 12 := by
  norm_num [vertex_chains, corners, pyInt]

theorem vertex_chains_zero : vertex_chains 0 = 0 := by
  norm_num [vertex_chains, corners, pyInt]

theorem vertex_chains_half : vertex_chains (1/2) = 6 := by
  norm_num [vertex_chains, corners, pyInt]

theorem vertex_chains_13_24 : vertex_chains (13/24) = 6 := by
  norm_num [vertex_chains, corners, pyInt]

theorem edge_chains_one : edge_chains 1 = 28 := by
  norm_num [edge_chains, edges_length, pyInt]

theorem edge_chains_zero : edge_chains 0 = 0 := by
  norm_num [edge_chains, edges_length, pyInt]

theorem edge_chains_half : edge_chains (1/2) = 14 := by
  norm_num [edge_chains, edges_length, pyInt]

theorem edge_chains_one_twentieth : edge_chains (1/20) = 1 := by
  norm_num [edge_chains, edges_length, pyInt]

theorem face_chains_one : face_chains 1 = 9 := by
  norm_num [face_chains, faces_length, pyInt]

theorem face_chains_zero : face_chains 0 = 0 := by
  norm_num [face_chains, faces_length, pyInt]

theorem face_chains_half : face_chains (1/2) = 4 := by
  norm_num [face_chains, faces_length, pyInt]

theorem total_chains_C2 : total_chains 1 (1/2) (1/2) = 30 := by
  rw [total_chains, vertex_chains_one, edge_chains_half, face_chains_half]
  decide

theorem hydrophobic_count_C2 : hydrophobic_count 1 (1/2) (1/2) (1/2) = 15 := by
  rw [hydrophobic_count, total_chains_C2]
  norm_num [pyInt]

theorem hydrophobic_count_b0 (v e f : ℚ) : hydrophobic_count v e f 0 = 0 := by
  rw [hydrophobic_count]
  norm_num [pyInt]

theorem total_chains_ones : total_chains 1 1 1 = 49 := by
  rw [total_chains, vertex_chains_one, edge_chains_one, face_chains_one]
  decide

theorem hydrophobic_count_ones : hydrophobic_count 1 1 1 1 = 49 := by
  rw [hydrophobic_count, total_chains_ones]
  norm_num [pyInt]

theorem total_chains_cex : total_chains 0 (1/20) 1 = 10 := by
  rw [total_chains, vertex_chains_zero, edge_chains_one_twentieth, face_chains_one]
  decide

theorem hydrophobic_count_cex : hydrophobic_count 0 (1/20) 1 1 = 10 := by
  rw [hydrophobic_count, total_chains_cex]
  norm_num [pyInt]

theorem hydrophobic_count_000 (b : ℚ) : hydrophobic_count 0 0 0 b = 0 := by
  rw [hydrophobic_count, total_chains, vertex_chains_zero, edge_chains_zero, face_chains_zero]
  norm_num [pyInt]

theorem create_C2_eq :
    create_facet_grid_pattern 1 (1/2) (1/2) (1/2) = allocCore 12 14 4 15 := by
  rw [create_facet_grid_pattern, vertex_chains_one, edge_chains_half, face_chains_half,
    hydrophobic_count_C2]

theorem create_1110_eq : create_facet_grid_pattern 1 1 1 0 = allocCore 12 28 9 0 := by
  rw [create_facet_grid_pattern, vertex_chains_one, edge_chains_one, face_chains_one,
    hydrophobic_count_b0]

theorem create_1111_eq : create_facet_grid_pattern 1 1 1 1 = allocCore 12 28 9 49 := by
  rw [create_facet_grid_pattern, vertex_chains_one, edge_chains_one, face_chains_one,
    hydrophobic_count_ones]

theorem create_cex_eq : create_facet_grid_pattern 0 (1/20) 1 1 = allocCore 0 1 9 10 := by
  rw [create_facet_grid_pattern, vertex_chains_zero, edge_chains_one_twentieth, face_chains_one,
    hydrophobic_count_cex]

theorem create_000_eq (b : ℚ) : create_facet_grid_pattern 0 0 0 b = allocCore 0 0 0 0 := by
  rw [create_facet_grid_pattern, vertex_chains_zero, edge_chains_zero, face_chains_zero,
    hydrophobic_count_000]

/-! ### Assembled facts about the whole pipeline -/

theorem range_of_valOr {w : Nat} {g g' : Grid} (hw : w = 1 ∨ w = 2)
    (hr : ∀ c, g c = 0 ∨ g c = 1 ∨ g c = 2) (h : valOr w g g') :
    ∀ c, g' c = 0 ∨ g' c = 1 ∨ g' c = 2 := by
  intro c
  rcases h c with h1 | h1
  · rw [h1]
    exact hr c
  · rcases hw with h2 | h2 <;> rw [h1, h2]
    · exact Or.inr (Or.inl rfl)
    · exact Or.inr (Or.inr rfl)

theorem emptyGrid_range (c : Cell) : emptyGrid c = 0 ∨ emptyGrid c = 1 ∨ emptyGrid c = 2 :=
  Or.inl rfl

theorem countVal_emptyGrid : countVal emptyGrid 2 = 0 := by decide

theorem countFilled_emptyGrid : countFilled emptyGrid = 0 := by decide

theorem allocCore_range (vc ec fc hc : ℤ) (c : Cell) :
    allocCore vc ec fc hc c = 0 ∨ allocCore vc ec fc hc c = 1 ∨ allocCore vc ec fc hc c = 2 := by
  unfold allocCore
  set s1 := fillCornersBlue vc hc corner_groups emptyGrid 0 0 with hs1
  set s2 := fillEdgesBlue ec hc edge_groups s1.1 s1.2.1 0 with hs2
  set s3 := fillFacesBlue fc face_groups s2.1 s2.2.1 0
    (min ((vc + ec) + fc - s2.2.1) (hc - s2.2.1)) with hs3
  set s4 := fillFacesGreen fc face_groups s3.1 0 s3.2.2.1 ((vc + ec + fc) - hc) with hs4
  set s5 := fillGreenLoop vc corner_groups s4.1 s4.2.1 s1.2.2 s4.2.2.2 with hs5
  set s6 := fillGreenLoop ec edge_groups.reverse s5.1 s5.2.1 s2.2.2 s5.2.2.2 with hs6
  have r1 : ∀ c, s1.1 c = 0 ∨ s1.1 c = 1 ∨ s1.1 c = 2 :=
    range_of_valOr (Or.inr rfl) emptyGrid_range
      (fillCornersBlue_val vc hc corner_groups emptyGrid 0 0)
  have r2 : ∀ c, s2.1 c = 0 ∨ s2.1 c = 1 ∨ s2.1 c = 2 :=
    range_of_valOr (Or.inr rfl) r1
      (stepOK_valOr (fillEdgesBlue_stepOK ec hc edge_groups s1.1 s1.2.1 0))
  have r3 : ∀ c, s3.1 c = 0 ∨ s3.1 c = 1 ∨ s3.1 c = 2 :=
    range_of_valOr (Or.inr rfl) r2
      (stepOK_valOr (fillFacesBlue_stepOK fc face_groups s2.1 s2.2.1 0
        (min ((vc + ec) + fc - s2.2.1) (hc - s2.2.1))))
  have r4 : ∀ c, s4.1 c = 0 ∨ s4.1 c = 1 ∨ s4.1 c = 2 :=
    range_of_valOr (Or.inl rfl) r3
      (stepOK_valOr (fillFacesGreen_stepOK fc face_groups s3.1 0 s3.2.2.1 ((vc + ec + fc) - hc)))
  have r5 : ∀ c, s5.1 c = 0 ∨ s5.1 c = 1 ∨ s5.1 c = 2 :=
    range_of_valOr (Or.inl rfl) r4
      (stepOK_valOr (fillGreenLoop_stepOK vc corner_groups s4.1 s4.2.1 s1.2.2 s4.2.2.2))
  have r6 : ∀ c, s6.1 c = 0 ∨ s6.1 c = 1 ∨ s6.1 c = 2 :=
    range_of_valOr (Or.inl rfl) r5
      (stepOK_valOr (fillGreenLoop_stepOK ec edge_groups.reverse s5.1 s5.2.1 s2.2.2 s5.2.2.2))
  exact r6 c

theorem allocCore_caps (vc ec fc hc : ℤ)
    (hhc0 : 0 ≤ hc) (hhct : hc ≤ vc + ec + fc) :
    (countVal (allocCore vc ec fc hc) 2 : ℤ) ≤ hc ∧
    (countFilled (allocCore vc ec fc hc) : ℤ) ≤ vc + ec + fc := by
  unfold allocCore
  dsimp only
  set s1 := fillCornersBlue vc hc corner_groups emptyGrid 0 0 with hs1
  set s2 := fillEdgesBlue ec hc edge_groups s1.1 s1.2.1 0 with hs2
  set rem := min ((vc + ec) + fc - s2.2.1) (hc - s2.2.1) with hrem
  set s3 := fillFacesBlue fc face_groups s2.1 s2.2.1 0 rem with hs3
  set nhc := (vc + ec + fc) - hc with hnhc
  set s4 := fillFacesGreen fc face_groups s3.1 0 s3.2.2.1 nhc with hs4
  set s5 := fillGreenLoop vc corner_groups s4.1 s4.2.1 s1.2.2 s4.2.2.2 with hs5
  set s6 := fillGreenLoop ec edge_groups.reverse s5.1 s5.2.1 s2.2.2 s5.2.2.2 with hs6
  have i0 : blueInv hc emptyGrid 0 := by
    refine ⟨?_, ?_, hhc0⟩
    · rw [countVal_emptyGrid]
      exact le_refl 0
    · rw [countFilled_emptyGrid]
      exact le_refl 0
  have i1 : blueInv hc s1.1 s1.2.1 :=
    fillCornersBlue_inv vc hc corner_groups emptyGrid 0 0 i0
  have i2 : blueInv hc s2.1 s2.2.1 :=
    fillEdgesBlue_inv ec hc edge_groups s1.1 s1.2.1 0 i1
  obtain ⟨i21, i22, i23⟩ := i2
  have hrem0 : 0 ≤ rem := by
    rw [hrem]
    refine le_min (by omega) (by omega)
  have hremle : rem ≤ hc - s2.2.1 := min_le_right _ _
  obtain ⟨i31, i32, i33, i34⟩ :=
    fillFacesBlue_inv fc face_groups s2.1 s2.2.1 0 rem i21 i22 hrem0
  rw [← hs3] at i31 i32 i33 i34
  have hblue3 : s3.2.1 ≤ hc := by omega
  have hnhc0 : 0 ≤ nhc := by omega
  obtain ⟨i41, i42, i43, i44⟩ :=
    fillFacesGreen_inv fc s3.2.1 face_groups s3.1 0 s3.2.2.1 nhc (by omega) hnhc0
  rw [← hs4] at i41 i42 i43 i44
  obtain ⟨i51, i52, i53, i54⟩ :=
    fillGreenLoop_inv vc s3.2.1 corner_groups s4.1 s4.2.1 s1.2.2 s4.2.2.2 i41 i42
  rw [← hs5] at i51 i52 i53 i54
  obtain ⟨i61, i62, i63, i64⟩ :=
    fillGreenLoop_inv ec s3.2.1 edge_groups.reverse s5.1 s5.2.1 s2.2.2 s5.2.2.2 i51 i52
  rw [← hs6] at i61 i62 i63 i64
  constructor
  · omega
  · omega

/-! ### The claims -/

/-- C1 counterexample: the role partition does not have sizes 12 / 24 / 13; the
edge role has 28 cells and the face role 9. -/
theorem C1_counterexample :
    ¬ (corners.length = 12 ∧ edges.length = 24 ∧ faces.length = 13) := by
  decide

/-- C1 (amended): the role classification of `create_facet_grid_pattern`
partitions the 49 grid cells into disjoint sets covering the whole 7×7 grid,
with fixed sizes 12 corner cells, 28 edge cells and 9 face cells, independent
of the input parameters (the role lists are constants). -/
theorem C1_role_partition :
    corners.length = 12 ∧ edges.length = 28 ∧ faces.length = 9 ∧
    (corners ++ edges ++ faces).Nodup ∧ (corners ++ edges ++ faces).Perm allCells := by
  refine ⟨by decide, by decide, by decide, by decide, by decide⟩

/-- C2 counterexample: at input (1, 1/2, 1/2, 1/2) the derived targets are not
edge_target = 12, total_target = 28, hydrophobic_target = 14 (they are 14, 30, 15). -/
theorem C2_counterexample :
    ¬ (edge_chains (1/2) = 12 ∧ total_chains 1 (1/2) (1/2) = 28 ∧
       hydrophobic_count 1 (1/2) (1/2) (1/2) = 14) := by
  intro h
  have h1 := edge_chains_half
  omega

set_option maxRecDepth 20000 in
/-- C2 (amended): for input (1, 1/2, 1/2, 1/2) the derived targets are
corner_target = 12, edge_target = 14, face_target = 4, total_target = 30 and
hydrophobic_target = 15, and the returned grid has at most 15 Hydrophobic cells
and at most 30 filled cells. -/
theorem C2_targets_and_caps :
    vertex_chains 1 = 12 ∧ edge_chains (1/2) = 14 ∧ face_chains (1/2) = 4 ∧
    total_chains 1 (1/2) (1/2) = 30 ∧ hydrophobic_count 1 (1/2) (1/2) (1/2) = 15 ∧
    countVal (create_facet_grid_pattern 1 (1/2) (1/2) (1/2)) 2 ≤ 15 ∧
    countFilled (create_facet_grid_pattern 1 (1/2) (1/2) (1/2)) ≤ 30 := by
  refine ⟨vertex_chains_one, edge_chains_half, face_chains_half, total_chains_C2,
    hydrophobic_count_C2, ?_, ?_⟩
  · rw [create_C2_eq]
    decide
  · rw [create_C2_eq]
    decide

set_option maxRecDepth 20000 in
/-- C3 counterexample: at the in-range input (0, 1/20, 1, 1) the edge role
receives 4 filled cells although edge_chains = 1, so the per-role cap fails. -/
theorem C3_counterexample :
    edge_chains (1/20) = 1 ∧
    countRoleFilled edges (create_facet_grid_pattern 0 (1/20) 1 1) = 4 ∧
    ¬ ((countRoleFilled edges (create_facet_grid_pattern 0 (1/20) 1 1) : ℤ) ≤
        edge_chains (1/20)) := by
  refine ⟨edge_chains_one_twentieth, ?_, ?_⟩
  · rw [create_cex_eq]
    decide
  · rw [create_cex_eq, edge_chains_one_twentieth]
    decide

/-- C3 (amended): for inputs in [0,1] the number of Hydrophobic cells in the
returned grid is at most hydrophobic_count, and the number of filled cells is at
most total_chains; the per-role cap of the original claim does not hold. -/
theorem C3_caps (v e f b : ℚ) (hv0 : 0 ≤ v) (hv1 : v ≤ 1) (he0 : 0 ≤ e) (he1 : e ≤ 1)
    (hf0 : 0 ≤ f) (hf1 : f ≤ 1) (hb0 : 0 ≤ b) (hb1 : b ≤ 1) :
    (countVal (create_facet_grid_pattern v e f b) 2 : ℤ) ≤ hydrophobic_count v e f b ∧
    (countFilled (create_facet_grid_pattern v e f b) : ℤ) ≤ total_chains v e f := by
  have h1 : 0 ≤ v * (corners.length : ℚ) := mul_nonneg hv0 (Nat.cast_nonneg _)
  have h2 : 0 ≤ e * (edges.length : ℚ) := mul_nonneg he0 (Nat.cast_nonneg _)
  have h3 : 0 ≤ f * (faces.length : ℚ) := mul_nonneg hf0 (Nat.cast_nonneg _)
  have hvc : 0 ≤ vertex_chains v := pyInt_nonneg h1
  have hec : 0 ≤ edge_chains e := pyInt_nonneg h2
  have hfc : 0 ≤ face_chains f := pyInt_nonneg h3
  have htot : 0 ≤ total_chains v e f := by
    rw [total_chains]
    omega
  have htotQ : (0:ℚ) ≤ ((total_chains v e f : ℤ) : ℚ) := by exact_mod_cast htot
  have hhc0 : 0 ≤ hydrophobic_count v e f b := pyInt_nonneg (mul_nonneg htotQ hb0)
  have hhct : hydrophobic_count v e f b ≤ total_chains v e f := by
    rw [hydrophobic_count, pyInt_of_nonneg (mul_nonneg htotQ hb0)]
    calc ⌊((total_chains v e f : ℤ) : ℚ) * b⌋
        ≤ ⌊((total_chains v e f : ℤ) : ℚ)⌋ :=
          Int.floor_le_floor (mul_le_of_le_one_right htotQ hb1)
      _ = total_chains v e f := Int.floor_intCast _
  have hmain := allocCore_caps (vertex_chains v) (edge_chains e) (face_chains f)
    (hydrophobic_count v e f b) hhc0 hhct
  exact hmain

/-- C3 witness: the amended bound instantiated at (1, 1/2, 1/2, 1/2). -/
theorem C3_caps_witness :
    (countVal (create_facet_grid_pattern 1 (1/2) (1/2) (1/2)) 2 : ℤ) ≤
      hydrophobic_count 1 (1/2) (1/2) (1/2) ∧
    (countFilled (create_facet_grid_pattern 1 (1/2) (1/2) (1/2)) : ℤ) ≤
      total_chains 1 (1/2) (1/2) :=
  C3_caps 1 (1/2) (1/2) (1/2) (by norm_num) (by norm_num) (by norm_num) (by norm_num)
    (by norm_num) (by norm_num) (by norm_num) (by norm_num)

/-- C4 counterexample: the edge role does not consist of 24 cells; the edge
groups flatten to 28 cells, matching the 28 edge cells. -/
theorem C4_counterexample :
    edge_groups.flatten.length = 28 ∧ ¬ (edges.length = 24) := by
  decide

/-- C4 (amended): the edge symmetry group table has exactly 8 groups whose cells
together cover the 28 edge cells, and every group of the corner, edge and face
tables contains only cells of its single corresponding role. -/
theorem C4_groups :
    edge_groups.length = 8 ∧ edge_groups.flatten.Perm edges ∧
    (corner_groups.flatten.all (fun c => decide (c ∈ corners))) = true ∧
    (edge_groups.flatten.all (fun c => decide (c ∈ edges))) = true ∧
    (face_groups.flatten.all (fun c => decide (c ∈ faces))) = true := by
  refine ⟨by decide, by decide, by decide, by decide, by decide⟩

/-- C5: for parameters in [0,1], every derived count is the floor formula of the
spec: role targets are floor(density * role size), total is their sum,
hydrophobic target is floor(total * ratio) and the non-hydrophobic target is the
difference. -/
theorem C5_targets (v e f b : ℚ) (hv0 : 0 ≤ v) (hv1 : v ≤ 1) (he0 : 0 ≤ e) (he1 : e ≤ 1)
    (hf0 : 0 ≤ f) (hf1 : f ≤ 1) (hb0 : 0 ≤ b) (hb1 : b ≤ 1) :
    vertex_chains v = ⌊v * (corners.length : ℚ)⌋ ∧
    edge_chains e = ⌊e * (edges.length : ℚ)⌋ ∧
    face_chains f = ⌊f * (faces.length : ℚ)⌋ ∧
    total_chains v e f = vertex_chains v + edge_chains e + face_chains f ∧
    hydrophobic_count v e f b = ⌊((total_chains v e f : ℤ) : ℚ) * b⌋ ∧
    non_hydrophobic_count v e f b = total_chains v e f - hydrophobic_count v e f b := by
  have h1 : 0 ≤ v * (corners.length : ℚ) := mul_nonneg hv0 (Nat.cast_nonneg _)
  have h2 : 0 ≤ e * (edges.length : ℚ) := mul_nonneg he0 (Nat.cast_nonneg _)
  have h3 : 0 ≤ f * (faces.length : ℚ) := mul_nonneg hf0 (Nat.cast_nonneg _)
  have hvc : 0 ≤ vertex_chains v := pyInt_nonneg h1
  have hec : 0 ≤ edge_chains e := pyInt_nonneg h2
  have hfc : 0 ≤ face_chains f := pyInt_nonneg h3
  have htot : 0 ≤ total_chains v e f := by
    rw [total_chains]
    omega
  have htotQ : (0:ℚ) ≤ ((total_chains v e f : ℤ) : ℚ) := by exact_mod_cast htot
  exact ⟨pyInt_of_nonneg h1, pyInt_of_nonneg h2, pyInt_of_nonneg h3, rfl,
    pyInt_of_nonneg (mul_nonneg htotQ hb0), rfl⟩

/-- C5 witness: the target formulas instantiated at (1/2, 1/2, 1/2, 1/2). -/
theorem C5_targets_witness :
    vertex_chains (1/2) = ⌊(1/2 : ℚ) * (corners.length : ℚ)⌋ ∧
    edge_chains (1/2) = ⌊(1/2 : ℚ) * (edges.length : ℚ)⌋ ∧
    face_chains (1/2) = ⌊(1/2 : ℚ) * (faces.length : ℚ)⌋ ∧
    total_chains (1/2) (1/2) (1/2) =
      vertex_chains (1/2) + edge_chains (1/2) + face_chains (1/2) ∧
    hydrophobic_count (1/2) (1/2) (1/2) (1/2) =
      ⌊((total_chains (1/2) (1/2) (1/2) : ℤ) : ℚ) * (1/2)⌋ ∧
    non_hydrophobic_count (1/2) (1/2) (1/2) (1/2) =
      total_chains (1/2) (1/2) (1/2) - hydrophobic_count (1/2) (1/2) (1/2) (1/2) :=
  C5_targets (1/2) (1/2) (1/2) (1/2) (by norm_num) (by norm_num) (by norm_num) (by norm_num)
    (by norm_num) (by norm_num) (by norm_num) (by norm_num)

set_option maxRecDepth 20000 in
/-- C6: with densities 1,1,1 and hydrophobic ratio 0 every cell is
NonHydrophobic (1) and no cell is Hydrophobic; with ratio 1 every cell is
Hydrophobic (2). -/
theorem C6_saturated_fills :
    (allCells.all (fun c => create_facet_grid_pattern 1 1 1 0 c == 1)) = true ∧
    countVal (create_facet_grid_pattern 1 1 1 0) 2 = 0 ∧
    (allCells.all (fun c => create_facet_grid_pattern 1 1 1 1 c == 2)) = true := by
  refine ⟨?_, ?_, ?_⟩
  · rw [create_1110_eq]
    decide
  · rw [create_1110_eq]
    decide
  · rw [create_1111_eq]
    decide

/-- C7: with all densities 0, whatever the hydrophobic ratio, every cell of the
returned grid is Empty (0). -/
theorem C7_all_empty (b : ℚ) (c : Cell) : create_facet_grid_pattern 0 0 0 b c = 0 := by
  rw [create_000_eq b]
  rfl

/-- C9: for every rational input quadruple, in range or not, the allocator
totalises to a grid whose every cell is one of the labels 0, 1, 2. -/
theorem C9_always_range (v e f b : ℚ) (c : Cell) :
    create_facet_grid_pattern v e f b c = 0 ∨ create_facet_grid_pattern v e f b c = 1 ∨
    create_facet_grid_pattern v e f b c = 2 :=
  allocCore_range (vertex_chains v) (edge_chains e) (face_chains f)
    (hydrophobic_count v e f b) c

/-- C10: the returned grid depends only on the four derived integer counts: two
input quadruples with equal derived counts give identical grids. -/
theorem C10_counts_determine_grid (v e f b w x y z : ℚ)
    (h1 : vertex_chains v = vertex_chains w) (h2 : edge_chains e = edge_chains x)
    (h3 : face_chains f = face_chains y)
    (h4 : hydrophobic_count v e f b = hydrophobic_count w x y z) :
    create_facet_grid_pattern v e f b = create_facet_grid_pattern w x y z := by
  rw [create_facet_grid_pattern, create_facet_grid_pattern, h1, h2, h3, h4]

/-- C10 witness: the inputs (1/2, 0, 0, 0) and (13/24, 0, 0, 0) derive the same
counts (6, 0, 0, 0) and indeed give the same grid. -/
theorem C10_witness :
    create_facet_grid_pattern (1/2) 0 0 0 = create_facet_grid_pattern (13/24) 0 0 0 :=
  C10_counts_determine_grid (1/2) 0 0 0 (13/24) 0 0 0
    (vertex_chains_half.trans vertex_chains_13_24.symm) rfl rfl
    ((hydrophobic_count_b0 (1/2) 0 0).trans (hydrophobic_count_b0 (13/24) 0 0).symm)

/-- The seven stage grids of the allocation pipeline: the empty grid followed by
the grid after each of the six fill phases; the last entry is the returned grid. -/
def phaseGrids (vc ec fc hc : ℤ) : List Grid :=
  let s1 := fillCornersBlue vc hc corner_groups emptyGrid 0 0
  let s2 := fillEdgesBlue ec hc edge_groups s1.1 s1.2.1 0
  let s3 := fillFacesBlue fc face_groups s2.1 s2.2.1 0
    (min ((vc + ec) + fc - s2.2.1) (hc - s2.2.1))
  let s4 := fillFacesGreen fc face_groups s3.1 0 s3.2.2.1 ((vc + ec + fc) - hc)
  let s5 := fillGreenLoop vc corner_groups s4.1 s4.2.1 s1.2.2 s4.2.2.2
  let s6 := fillGreenLoop ec edge_groups.reverse s5.1 s5.2.1 s2.2.2 s5.2.2.2
  [emptyGrid, s1.1, s2.1, s3.1, s4.1, s5.1, s6.1]

/-- C8: the allocation runs as a chain of six stages whose consecutive grids are
related by monoStep, so a cell's label changes at most once, from Empty (0) to a
non-Empty value, and is never overwritten afterwards; the last stage grid is the
returned grid, and every final cell value is one of 0, 1, 2. -/
theorem C8_write_once (v e f b : ℚ) :
    List.Chain' monoStep (phaseGrids (vertex_chains v) (edge_chains e) (face_chains f)
      (hydrophobic_count v e f b)) ∧
    (phaseGrids (vertex_chains v) (edge_chains e) (face_chains f)
      (hydrophobic_count v e f b)).getLast? = some (create_facet_grid_pattern v e f b) ∧
    (∀ c : Cell, create_facet_grid_pattern v e f b c = 0 ∨
      create_facet_grid_pattern v e f b c = 1 ∨ create_facet_grid_pattern v e f b c = 2) := by
  refine ⟨?_, rfl, fun c => allocCore_range (vertex_chains v) (edge_chains e)
    (face_chains f) (hydrophobic_count v e f b) c⟩
  unfold phaseGrids
  set vc := vertex_chains v with hvc
  set ec := edge_chains e with hec
  set fc := face_chains f with hfc
  set hc := hydrophobic_count v e f b with hhc
  set s1 := fillCornersBlue vc hc corner_groups emptyGrid 0 0 with hs1
  set s2 := fillEdgesBlue ec hc edge_groups s1.1 s1.2.1 0 with hs2
  set s3 := fillFacesBlue fc face_groups s2.1 s2.2.1 0
    (min ((vc + ec) + fc - s2.2.1) (hc - s2.2.1)) with hs3
  set s4 := fillFacesGreen fc face_groups s3.1 0 s3.2.2.1 ((vc + ec + fc) - hc) with hs4
  set s5 := fillGreenLoop vc corner_groups s4.1 s4.2.1 s1.2.2 s4.2.2.2 with hs5
  set s6 := fillGreenLoop ec edge_groups.reverse s5.1 s5.2.1 s2.2.2 s5.2.2.2 with hs6
  rw [List.chain'_cons, List.chain'_cons, List.chain'_cons, List.chain'_cons,
    List.chain'_cons, List.chain'_cons]
  refine ⟨?_, ?_, ?_, ?_, ?_, ?_, by simp⟩
  · intro c hcne
    rcases fillCornersBlue_val vc hc corner_groups emptyGrid 0 0 c with h | h
    · exact absurd h hcne
    · exact ⟨rfl, by rw [h]; decide⟩
  · exact monoStep_of_stepOK (by decide)
      (fillEdgesBlue_stepOK ec hc edge_groups s1.1 s1.2.1 0)
  · exact monoStep_of_stepOK (by decide)
      (fillFacesBlue_stepOK fc face_groups s2.1 s2.2.1 0
        (min ((vc + ec) + fc - s2.2.1) (hc - s2.2.1)))
  · exact monoStep_of_stepOK (by decide)
      (fillFacesGreen_stepOK fc face_groups s3.1 0 s3.2.2.1 ((vc + ec + fc) - hc))
  · exact monoStep_of_stepOK (by decide)
      (fillGreenLoop_stepOK vc corner_groups s4.1 s4.2.1 s1.2.2 s4.2.2.2)
  · exact monoStep_of_stepOK (by decide)
      (fillGreenLoop_stepOK ec edge_groups.reverse s5.1 s5.2.1 s2.2.2 s5.2.2.2)

end ColorGrid
